import Mathlib

/-! Formal model of the data-wrangling core of the `prog_machine_project`
repository (`src/pages/modules_for_pages/data_wrangling.py`), together with
proofs of the testable properties stated in its specification.

Tabular data is modelled as a list of named, typed columns of values.
Python dictionaries are modelled as association lists (iteration order is
insertion order, as in Python); a failed dictionary lookup (Python
`KeyError`) or a failed value conversion is modelled with `Option` and
`Except`. External library calls (the scikit-learn encoders, scaler and
PCA) are treated as provided primitives, as the specification's scope
section declares; they are modelled by their interface contracts (output
shapes, category orders, produced column names, failure conditions), with
the smoothing and projection numerics abstracted. -/

namespace DataWrangling

/-- A cell value of an in-memory table. Machine floats are modelled as
rationals; datetimes as an abstract integer timestamp. -/
inductive Value where
  | vInt : Int → Value
  | vRat : Rat → Value
  | vStr : String → Value
  | vDate : Int → Value
deriving DecidableEq

/-- A named column: the pandas dtype name plus the cell values. -/
structure Column where
  name : String
  dtype : String
  values : List Value
deriving DecidableEq

/-- A pandas `DataFrame`: an ordered list of named columns. -/
abbrev Dataset := List Column

/-- Python-level failures surfaced by the wrangling functions.
`unknownEncodingStrategy` is the failure of `create_encoded_column` when the
strategy name matches no branch of its `if`/`elif` chain (in Python this
surfaces as an `UnboundLocalError` at the final `pd.DataFrame` call; the
spec's error taxonomy calls the condition `UnknownEncodingStrategy`).
`componentCountExceeded` is scikit-learn's `ValueError` for a PCA component
count larger than `min(n_samples, n_features)`. -/
inductive PyError where
  | keyError : String → PyError
  | unknownEncodingStrategy : PyError
  | lengthMismatch : PyError
  | noObjectsToConcatenate : PyError
  | componentCountExceeded : PyError
deriving DecidableEq

instance {ε α : Type} [DecidableEq ε] [DecidableEq α] : DecidableEq (Except ε α) :=
  fun a b =>
    match a, b with
    | .error e, .error f =>
      if h : e = f then isTrue (by rw [h])
      else isFalse (by intro hh; injection hh; contradiction)
    | .ok x, .ok y =>
      if h : x = y then isTrue (by rw [h])
      else isFalse (by intro hh; injection hh; contradiction)
    | .error _, .ok _ => isFalse (by intro hh; cases hh)
    | .ok _, .error _ => isFalse (by intro hh; cases hh)

/-- `df[key]` on the column axis: the column named `key`, if present. -/
def getCol (df : Dataset) (key : String) : Option Column :=
  df.find? (fun c => c.name == key)

/-- `df[key] = series`: replace the values (and dtype) of column `key`. -/
def setCol (df : Dataset) (key dty : String) (vs : List Value) : Dataset :=
  df.map (fun c => if c.name = key then ⟨key, dty, vs⟩ else c)

/-- A successful association-list lookup finds an actual entry. -/
theorem mem_of_lookup {k v : String} :
    ∀ {m : List (String × String)}, m.lookup k = some v → (k, v) ∈ m := by
  intro m
  induction m with
  | nil => intro h; simp [List.lookup] at h
  | cons p rest ih =>
    intro h
    rcases p with ⟨a, b⟩
    rw [List.lookup] at h
    cases hk : (k == a) with
    | true =>
      rw [hk] at h
      have hka : k = a := by simpa using hk
      have hbv : b = v := by simpa using h
      exact List.mem_cons.mpr (Or.inl (by rw [hka, hbv]))
    | false =>
      rw [hk] at h
      exact List.mem_cons.mpr (Or.inr (ih h))

/-- The rows of the table built by `create_type_df` (lines 25-30): one
`(Variable, Type)` pair per column, the type obtained by sending the
column's storage dtype through the dtype map; a missing dtype is a Python
`KeyError` (`none`). -/
def typeRows (dtype_map : List (String × String)) : Dataset → Option (List (String × String))
  | [] => some []
  | c :: rest =>
    match dtype_map.lookup c.dtype, typeRows dtype_map rest with
    | some t, some r => some ((c.name, t) :: r)
    | _, _ => none

/-- `create_type_df` (lines 14-31): assigns a semantic category to each
column of the dataset by looking its dtype up in `dtype_map`. -/
def create_type_df (df : Dataset) (dtype_map : List (String × String)) :
    Option (List (String × String)) :=
  typeRows dtype_map df

theorem typeRows_none_iff (m : List (String × String)) (df : Dataset) :
    typeRows m df = none ↔ ∃ c ∈ df, m.lookup c.dtype = none := by
  induction df with
  | nil =>
    constructor
    · intro h; cases h
    · rintro ⟨c, hc, _⟩; cases hc
  | cons c rest ih =>
    rw [typeRows]
    cases h1 : m.lookup c.dtype with
    | none =>
      cases h2 : typeRows m rest with
      | none =>
        constructor
        · intro _
          exact ⟨c, List.mem_cons_self _ _, h1⟩
        · intro _; rfl
      | some r =>
        constructor
        · intro _
          exact ⟨c, List.mem_cons_self _ _, h1⟩
        · intro _; rfl
    | some t =>
      cases h2 : typeRows m rest with
      | none =>
        rw [h2] at ih
        constructor
        · intro _
          obtain ⟨d, hd, hnone⟩ := ih.mp rfl
          exact ⟨d, List.mem_cons_of_mem _ hd, hnone⟩
        · intro _; rfl
      | some r =>
        rw [h2] at ih
        constructor
        · intro h; cases h
        · rintro ⟨d, hd, hnone⟩
          rcases List.mem_cons.mp hd with hd | hd
          · rw [hd] at hnone; rw [hnone] at h1; cases h1
          · cases ih.mpr ⟨d, hd, hnone⟩

theorem typeRows_some (m : List (String × String)) (df : Dataset)
    (res : List (String × String)) (h : typeRows m df = some res) :
    res.map Prod.fst = df.map Column.name ∧
      ∀ p ∈ res, ∃ c ∈ df, m.lookup c.dtype = some p.2 := by
  induction df generalizing res with
  | nil =>
    simp [typeRows] at h
    subst h
    simp
  | cons c rest ih =>
    rw [typeRows] at h
    cases h1 : m.lookup c.dtype with
    | none => rw [h1] at h; cases h
    | some t =>
      rw [h1] at h
      cases h2 : typeRows m rest with
      | none => rw [h2] at h; cases h
      | some r =>
        rw [h2] at h
        have hres : res = (c.name, t) :: r := by
          simpa using h.symm
        subst hres
        obtain ⟨ihl, ihr⟩ := ih r h2
        constructor
        · simp [ihl]
        · intro p hp
          rcases List.mem_cons.mp hp with hp | hp
          · exact ⟨c, List.mem_cons_self _ _, by rw [hp]; exact h1⟩
          · obtain ⟨d, hd, hl⟩ := ihr p hp
            exact ⟨d, List.mem_cons_of_mem _ hd, hl⟩

/-- C8: for a type map whose range lies in the three semantic categories,
`create_type_df` fails exactly when some column's storage dtype is absent
from the map, and on success returns exactly one category per column (in
column order), every category drawn from {Numeric, Categorical, Date}. -/
theorem create_type_df_classifies (df : Dataset) (m : List (String × String))
    (hrange : ∀ p ∈ m, p.2 = "Numeric" ∨ p.2 = "Categorical" ∨ p.2 = "Date") :
    (create_type_df df m = none ↔ ∃ c ∈ df, m.lookup c.dtype = none) ∧
      ∀ res, create_type_df df m = some res →
        res.map Prod.fst = df.map Column.name ∧
          ∀ p ∈ res, p.2 = "Numeric" ∨ p.2 = "Categorical" ∨ p.2 = "Date" := by
  constructor
  · exact typeRows_none_iff m df
  · intro res h
    obtain ⟨hl, hr⟩ := typeRows_some m df res h
    refine ⟨hl, ?_⟩
    intro p hp
    obtain ⟨c, _, hlook⟩ := hr p hp
    exact hrange (c.dtype, p.2) (mem_of_lookup hlook)

/-- Witness for C8 at a concrete dataset and type map. -/
theorem create_type_df_classifies_witness :
    (∀ p ∈ [("int64", "Numeric"), ("object", "Categorical")],
        p.2 = "Numeric" ∨ p.2 = "Categorical" ∨ p.2 = "Date") ∧
      ((create_type_df
            [⟨"age", "int64", [Value.vInt 30]⟩, ⟨"city", "object", [Value.vStr "A"]⟩]
            [("int64", "Numeric"), ("object", "Categorical")] = none ↔
          ∃ c ∈ [Column.mk "age" "int64" [Value.vInt 30],
              Column.mk "city" "object" [Value.vStr "A"]],
            [("int64", "Numeric"), ("object", "Categorical")].lookup c.dtype = none) ∧
        ∀ res,
          create_type_df
              [⟨"age", "int64", [Value.vInt 30]⟩, ⟨"city", "object", [Value.vStr "A"]⟩]
              [("int64", "Numeric"), ("object", "Categorical")] = some res →
            res.map Prod.fst =
                [Column.mk "age" "int64" [Value.vInt 30],
                  Column.mk "city" "object" [Value.vStr "A"]].map Column.name ∧
              ∀ p ∈ res, p.2 = "Numeric" ∨ p.2 = "Categorical" ∨ p.2 = "Date") :=
  ⟨by decide, create_type_df_classifies _ _ (by decide)⟩

/-! ## Type casting (`cast_dtype`) -/

/-- Split a character list on a separator character. -/
def splitOnChar (sep : Char) : List Char → List (List Char)
  | [] => [[]]
  | c :: cs =>
    let r := splitOnChar sep cs
    if c = sep then [] :: r
    else
      match r with
      | [] => [[c]]
      | g :: gs => (c :: g) :: gs

/-- Parse a nonempty all-digit character list to a number. -/
def digitsToNatAux : List Char → Nat → Option Nat
  | [], acc => some acc
  | c :: cs, acc =>
    if c.isDigit then digitsToNatAux cs (acc * 10 + (c.toNat - 48)) else none

/-- Parse a nonempty all-digit character list to a number. -/
def digitsToNat? : List Char → Option Nat
  | [] => none
  | cs => digitsToNatAux cs 0

/-- Parse an optionally signed integer numeral. -/
def intOfChars? : List Char → Option Int
  | '-' :: cs => (digitsToNat? cs).map (fun n => -(n : Int))
  | cs => (digitsToNat? cs).map (fun n => (n : Int))

/-- Parse an ISO `YYYY-MM-DD` date string, the abstraction of
`pd.to_datetime` on date strings; the timestamp representation is the
abstract integer `y * 10000 + m * 100 + d`. -/
def parseDate? (s : String) : Option Int :=
  match splitOnChar '-' s.data with
  | [y, mo, d] =>
    match digitsToNat? y, digitsToNat? mo, digitsToNat? d with
    | some yn, some mn, some dn =>
      if y.length = 4 ∧ 1 ≤ mn ∧ mn ≤ 12 ∧ 1 ≤ dn ∧ dn ≤ 31 then
        some ((yn * 10000 + mn * 100 + dn : Nat) : Int)
      else none
    | _, _, _ => none
  | _ => none

/-- Parse a decimal numeral string to a rational: the abstraction of
`astype(float)` on a string cell. -/
def parseRat? (s : String) : Option Rat :=
  match splitOnChar '.' s.data with
  | [a] => (intOfChars? a).map (fun n => (n : Rat))
  | [a, b] =>
    match intOfChars? a, digitsToNat? b with
    | some i, some f =>
      let frac : Rat := (f : Rat) / ((10 ^ b.length : Nat) : Rat)
      some (if a.head? = some '-' then (i : Rat) - frac else (i : Rat) + frac)
    | _, _ => none
  | _ => none

/-- `series.astype(dty)` on one cell. Casts to `"category"` or `"object"`
keep the underlying values (pandas changes only the dtype); numeric casts
parse numeric strings, truncate floats toward zero, and fail (a raised
pandas `ValueError`) on anything unparsable. -/
def castValue (dty : String) (v : Value) : Option Value :=
  if dty = "category" ∨ dty = "object" then some v
  else if dty = "float64" then
    match v with
    | .vInt n => some (.vRat (n : Rat))
    | .vRat q => some (.vRat q)
    | .vStr s => (parseRat? s).map Value.vRat
    | .vDate _ => none
  else if dty = "int64" then
    match v with
    | .vInt n => some (.vInt n)
    | .vRat q => some (.vInt (Int.tdiv q.num (q.den : Int)))
    | .vStr s => (intOfChars? s.data).map Value.vInt
    | .vDate _ => none
  else none

/-- `pd.to_datetime` on one cell: ISO date strings parse to a timestamp,
datetimes pass through, integers are raw timestamps, anything else raises. -/
def toDatetimeV : Value → Option Value
  | .vStr s => (parseDate? s).map Value.vDate
  | .vDate t => some (.vDate t)
  | .vInt n => some (.vDate n)
  | .vRat _ => none

/-- One iteration of the loop of `cast_dtype` (lines 63-69) for the
requested entry `(key, rcat)`: nothing happens when the requested category
equals the previous one; a requested `"Date"` runs `pd.to_datetime` on the
column; otherwise the column is `astype`-cast to the dtype that
`dtype_map` assigns to the requested category. `none` models a raised
Python exception (a `KeyError` or a conversion failure), which leaves the
dataset exactly as it was before the iteration. -/
def castStep (orig_dict dtype_map : List (String × String)) (df : Dataset)
    (key rcat : String) : Option Dataset :=
  match orig_dict.lookup key with
  | none => none
  | some ocat =>
    if rcat = ocat then some df
    else if rcat = "Date" then
      match getCol df key with
      | none => none
      | some c => (c.values.mapM toDatetimeV).map (setCol df key "datetime64[ns]")
    else
      match dtype_map.lookup rcat with
      | none => none
      | some dty =>
        match getCol df key with
        | none => none
        | some c => (c.values.mapM (castValue dty)).map (setCol df key dty)

/-- The loop of `cast_dtype` over the requested-category dictionary, in
iteration (= insertion) order. When an iteration raises, the loop stops and
the `.error` payload is the dataset at that moment: the in-place mutations
performed by earlier iterations persist, exactly as the Python caller
observes once the exception propagates. -/
def castLoop (orig_dict dtype_map : List (String × String)) :
    Dataset → List (String × String) → Except Dataset Dataset
  | df, [] => .ok df
  | df, (key, rcat) :: rest =>
    match castStep orig_dict dtype_map df key rcat with
    | none => .error df
    | some df2 => castLoop orig_dict dtype_map df2 rest

/-- `cast_dtype` (lines 49-71): runs the cast loop over the requested
dictionary, then returns the updated dataset together with the requested
dictionary itself (line 70 rebinds `orig_dict = res_dict` just before the
`return df, orig_dict`). -/
def cast_dtype (df : Dataset) (orig_dict res_dict dtype_map : List (String × String)) :
    Except Dataset (Dataset × List (String × String)) :=
  match castLoop orig_dict dtype_map df res_dict with
  | .error d => .error d
  | .ok d => .ok (d, res_dict)

/-- C5 counterexample: with the dataset `D = [c: int64 [1]]` (so `cat(c) =
"Numeric"` under the standard dtype map) and the previous-category
dictionary `prevCats = {c: Numeric, d: Numeric}`, the call
`cast(D, {c: Numeric}, prevCats, M)` returns `(D, {c: Numeric})` — the
requested dictionary, not `prevCats` — so the claimed identity
`cast(D, {c: cat(c)}, prevCats, M) == (D, prevCats)` fails. -/
theorem cast_dtype_self_cast_counterexample :
    cast_dtype [⟨"c", "int64", [Value.vInt 1]⟩]
        [("c", "Numeric"), ("d", "Numeric")] [("c", "Numeric")]
        [("Numeric", "float64")] =
      .ok ([⟨"c", "int64", [Value.vInt 1]⟩], [("c", "Numeric")]) ∧
      cast_dtype [⟨"c", "int64", [Value.vInt 1]⟩]
          [("c", "Numeric"), ("d", "Numeric")] [("c", "Numeric")]
          [("Numeric", "float64")] ≠
        .ok ([⟨"c", "int64", [Value.vInt 1]⟩], [("c", "Numeric"), ("d", "Numeric")]) := by
  decide

/-- C5 (amended): recasting a column to its own current category `γ =
cat(c)` is a no-op on the dataset, and the returned dictionary is the
requested `{c: γ}` (which equals `prevCats` only when `prevCats = {c: γ}`);
`prevCats` must assign `c` its current category, else the code either
raises a `KeyError` or re-casts the column. -/
theorem cast_dtype_self_cast_noop (df : Dataset)
    (orig_dict dtype_map inv_map : List (String × String))
    (c γ : String) (col : Column)
    (_hcol : getCol df c = some col) (_hcat : inv_map.lookup col.dtype = some γ)
    (hprev : orig_dict.lookup c = some γ) :
    cast_dtype df orig_dict [(c, γ)] dtype_map = .ok (df, [(c, γ)]) := by
  have hstep : castStep orig_dict dtype_map df c γ = some df := by
    unfold castStep
    rw [hprev]
    simp
  unfold cast_dtype
  rw [castLoop, hstep]
  rfl

/-- Witness for C5 (amended) at a concrete dataset. -/
theorem cast_dtype_self_cast_noop_witness :
    getCol [⟨"c", "int64", [Value.vInt 1]⟩] "c" = some ⟨"c", "int64", [Value.vInt 1]⟩ ∧
      [("int64", "Numeric")].lookup "int64" = some "Numeric" ∧
      [("c", "Numeric")].lookup "c" = some "Numeric" ∧
      cast_dtype [⟨"c", "int64", [Value.vInt 1]⟩] [("c", "Numeric")]
          [("c", "Numeric")] [("Numeric", "float64")] =
        .ok ([⟨"c", "int64", [Value.vInt 1]⟩], [("c", "Numeric")]) :=
  ⟨by decide, by decide, by decide,
    cast_dtype_self_cast_noop _ _ _ [("int64", "Numeric")] _ _
      ⟨"c", "int64", [Value.vInt 1]⟩ (by decide) (by decide) (by decide)⟩

/-- The cast loop over `pre ++ (key, rcat) :: post` stops at `(key, rcat)`
when the iterations over `pre` succeed and the one for `(key, rcat)`
raises; the surfaced dataset is the one produced by the `pre` iterations. -/
theorem castLoop_fail_after (o m : List (String × String))
    (pre : List (String × String)) :
    ∀ (df df1 : Dataset) (key rcat : String) (post : List (String × String)),
      castLoop o m df pre = .ok df1 →
      castStep o m df1 key rcat = none →
      castLoop o m df (pre ++ (key, rcat) :: post) = .error df1 := by
  induction pre with
  | nil =>
    intro df df1 key rcat post hpre hfail
    have hdf : df = df1 := by simpa [castLoop] using hpre
    subst hdf
    rw [List.nil_append, castLoop, hfail]
  | cons p rest ih =>
    intro df df1 key rcat post hpre hfail
    rcases p with ⟨k2, r2⟩
    rw [castLoop] at hpre
    rw [List.cons_append, castLoop]
    cases hs : castStep o m df k2 r2 with
    | none => rw [hs] at hpre; cases hpre
    | some df2 =>
      rw [hs] at hpre
      have hpre2 : castLoop o m df2 rest = .ok df1 := hpre
      show castLoop o m df2 (rest ++ (key, rcat) :: post) = .error df1
      exact ih df2 df1 key rcat post hpre2 hfail

/-- C6: `cast_dtype` is not atomic. If the conversions requested before the
entry `(key, rcat)` all succeed, turning the dataset into `df1`, and the
conversion for `(key, rcat)` raises, then the call surfaces the exception
with the dataset in state `df1`: every column processed earlier in the
iteration order remains converted (the dataset is mutated in place), and no
entry after the failing one is processed or changes the dataset. -/
theorem cast_dtype_partial_failure (o m : List (String × String))
    (df df1 : Dataset) (pre post : List (String × String)) (key rcat : String)
    (hpre : castLoop o m df pre = .ok df1)
    (hfail : castStep o m df1 key rcat = none) :
    cast_dtype df o (pre ++ (key, rcat) :: post) m = .error df1 := by
  unfold cast_dtype
  rw [castLoop_fail_after o m pre df df1 key rcat post hpre hfail]

/-- Witness for C6: casting `a` to Numeric succeeds, casting `b` to Date
fails on the non-date string `"x"`, and the surfaced dataset has `a`
converted while `b` and `c` keep their original values. -/
theorem cast_dtype_partial_failure_witness :
    castLoop [("a", "Categorical"), ("b", "Categorical"), ("c", "Categorical")]
        [("Numeric", "float64"), ("Categorical", "object")]
        [⟨"a", "object", [Value.vStr "1", Value.vStr "2"]⟩,
          ⟨"b", "object", [Value.vStr "x", Value.vStr "y"]⟩,
          ⟨"c", "object", [Value.vStr "z", Value.vStr "w"]⟩]
        [("a", "Numeric")] =
      .ok [⟨"a", "float64", [Value.vRat 1, Value.vRat 2]⟩,
        ⟨"b", "object", [Value.vStr "x", Value.vStr "y"]⟩,
        ⟨"c", "object", [Value.vStr "z", Value.vStr "w"]⟩] ∧
      castStep [("a", "Categorical"), ("b", "Categorical"), ("c", "Categorical")]
          [("Numeric", "float64"), ("Categorical", "object")]
          [⟨"a", "float64", [Value.vRat 1, Value.vRat 2]⟩,
            ⟨"b", "object", [Value.vStr "x", Value.vStr "y"]⟩,
            ⟨"c", "object", [Value.vStr "z", Value.vStr "w"]⟩] "b" "Date" = none ∧
      cast_dtype
          [⟨"a", "object", [Value.vStr "1", Value.vStr "2"]⟩,
            ⟨"b", "object", [Value.vStr "x", Value.vStr "y"]⟩,
            ⟨"c", "object", [Value.vStr "z", Value.vStr "w"]⟩]
          [("a", "Categorical"), ("b", "Categorical"), ("c", "Categorical")]
          [("a", "Numeric"), ("b", "Date"), ("c", "Numeric")]
          [("Numeric", "float64"), ("Categorical", "object")] =
        .error [⟨"a", "float64", [Value.vRat 1, Value.vRat 2]⟩,
          ⟨"b", "object", [Value.vStr "x", Value.vStr "y"]⟩,
          ⟨"c", "object", [Value.vStr "z", Value.vStr "w"]⟩] :=
  ⟨by decide, by decide,
    cast_dtype_partial_failure
      [("a", "Categorical"), ("b", "Categorical"), ("c", "Categorical")]
      [("Numeric", "float64"), ("Categorical", "object")]
      [⟨"a", "object", [Value.vStr "1", Value.vStr "2"]⟩,
        ⟨"b", "object", [Value.vStr "x", Value.vStr "y"]⟩,
        ⟨"c", "object", [Value.vStr "z", Value.vStr "w"]⟩]
      [⟨"a", "float64", [Value.vRat 1, Value.vRat 2]⟩,
        ⟨"b", "object", [Value.vStr "x", Value.vStr "y"]⟩,
        ⟨"c", "object", [Value.vStr "z", Value.vStr "w"]⟩]
      [("a", "Numeric")] [("c", "Numeric")] "b" "Date" (by decide) (by decide)⟩

/-! ## Column encoders -/

/-- String rendering of a cell value (Python `str()`); the encoder claims
exercise string and integer categories. -/
def valueToStr : Value → String
  | .vStr s => s
  | .vInt n => toString n
  | .vRat q => toString q
  | .vDate t => toString t

/-- Lexicographic comparison of character lists by code point. -/
def lexLe : List Char → List Char → Bool
  | [], _ => true
  | _ :: _, [] => false
  | a :: as, b :: bs =>
    if a.toNat < b.toNat then true
    else if b.toNat < a.toNat then false
    else lexLe as bs

/-- The comparison modelling numpy's sort order on column values: values
of the same kind compare by payload (strings lexicographically, as numpy
sorts object arrays of strings), values of different kinds by a fixed rank
(numpy would fail on genuinely mixed columns, so that order is arbitrary). -/
def vleB : Value → Value → Bool
  | .vInt a, .vInt b => a ≤ b
  | .vRat a, .vRat b => a ≤ b
  | .vStr a, .vStr b => lexLe a.data b.data
  | .vDate a, .vDate b => a ≤ b
  | .vInt _, _ => true
  | _, .vInt _ => false
  | .vRat _, _ => true
  | _, .vRat _ => false
  | .vStr _, _ => true
  | _, .vStr _ => false

/-- Sort values in numpy's order. -/
def sortValues (l : List Value) : List Value :=
  l.insertionSort (fun a b => vleB a b = true)

/-- `np.unique`: the distinct values in sorted order. This is the category
order of scikit-learn's `OneHotEncoder.categories_`, `OrdinalEncoder` and
`TargetEncoder.classes_`. -/
def sortedUnique (l : List Value) : List Value :=
  sortValues l.dedup

theorem sortedUnique_nodup (l : List Value) : (sortedUnique l).Nodup :=
  (List.perm_insertionSort _ l.dedup).nodup_iff.mpr l.nodup_dedup

theorem sortedUnique_length (l : List Value) :
    (sortedUnique l).length = l.dedup.length :=
  (List.perm_insertionSort _ l.dedup).length_eq

theorem mem_of_mem_sortedUnique {l : List Value} {v : Value}
    (h : v ∈ sortedUnique l) : v ∈ l :=
  List.mem_dedup.mp ((List.perm_insertionSort _ l.dedup).subset h)

/-- `one_hot_encoding` (lines 114-129): scikit-learn's `OneHotEncoder`
with `drop="first"` fitted on the column — a provided library primitive,
modelled by its contract: the categories are the sorted distinct observed
values, the first of them is dropped, each kept category yields a 0/1
indicator column (column-major; `int8` entries abstracted to `Int`), and
the names are `<col>_one_hot_<category>`. `none` is the Python `KeyError`
for a missing column. -/
def one_hot_encoding (df : Dataset) (x_column : String) :
    Option (List (List Int) × List String) :=
  (getCol df x_column).map (fun c =>
    (((sortedUnique c.values).drop 1).map
        (fun cat => c.values.map (fun v => if v = cat then 1 else 0)),
      ((sortedUnique c.values).drop 1).map
        (fun cat => x_column ++ "_one_hot_" ++ valueToStr cat)))

/-- `ordinal_encoding` (lines 164-177): `OrdinalEncoder` fitted on the
column — each value encoded as the float index of its category in sorted
order, a single column named `<col>_ordinal`. (The unknown-category marker
cannot arise: fit and transform see the same column.) -/
def ordinal_encoding (df : Dataset) (x_column : String) :
    Option (List (List Value) × String) :=
  (getCol df x_column).map (fun c =>
    ([c.values.map (fun v =>
        Value.vRat ((((sortedUnique c.values).indexOf v : Nat)) : Rat))],
      x_column ++ "_ordinal"))

/-- Numeric reading of a cell, for a continuous encoding target. -/
def valueToRat : Value → Option Rat
  | .vInt n => some (n : Rat)
  | .vRat q => some q
  | _ => none

/-- Mean of a list of rationals (0 for the empty list, which cannot arise
for the per-category row groups: each row's own group contains it). -/
def ratMean (l : List Rat) : Rat :=
  if l.length = 0 then 0 else l.sum / (l.length : Rat)

/-- Per-category mean of the target readings `ys` over the rows whose
`x` value equals `x0`. -/
def catMean (xs : List Value) (ys : List Rat) (x0 : Value) : Rat :=
  ratMean (((xs.zip ys).filter (fun p => decide (p.1 = x0))).map Prod.snd)

/-- Indicator of class `cls`. -/
def indicator (cls y : Value) : Rat := if y = cls then 1 else 0

/-- `tartet_encoding` (lines 132-161): scikit-learn's `TargetEncoder` — a
provided library primitive — modelled by its interface contract. With
`target_type="auto"` the encoder infers `"binary"` for a categorical
target with at most two distinct classes and `"multiclass"` for more
(`sklearn.utils.multiclass.type_of_target`); `classes_` is the sorted
distinct target values. The encoded statistic is modelled as the plain
per-category target mean (for a binary target, the mean of the
positive-class indicator; for multiclass, the per-class indicator means):
the library's automatic empirical-Bayes smoothing is internal to the
primitive and not re-specified — the claims depend on shape and names
only. Shape contract: one column for a continuous or binary target, one
column per class for a multiclass target. -/
def tartet_encoding (df : Dataset) (x_column target_column coltype : String) :
    Option (List (List Value) × (String ⊕ List String)) :=
  match getCol df x_column, getCol df target_column with
  | some cx, some cy =>
    if coltype = "Numeric" then
      match cy.values.mapM valueToRat with
      | none => none
      | some ys =>
        some ([cx.values.map (fun x0 => Value.vRat (catMean cx.values ys x0))],
          Sum.inl (x_column ++ "_target"))
    else
      if (sortedUnique cy.values).length ≤ 2 then
        some ([cx.values.map (fun x0 => Value.vRat (catMean cx.values
            (cy.values.map (indicator ((sortedUnique cy.values).getLastD (Value.vInt 0)))) x0))],
          Sum.inl (x_column ++ "_target"))
      else
        some ((sortedUnique cy.values).map (fun cls =>
            cx.values.map (fun x0 => Value.vRat (catMean cx.values
              (cy.values.map (indicator cls)) x0))),
          Sum.inr ((sortedUnique cy.values).map
            (fun cls => x_column ++ "_target_" ++ valueToStr cls)))
  | _, _ => none

/-- `create_encoded_column` (lines 180-204): dispatch on the strategy
name. A name matching no branch leaves `encoded_column` unbound and the
final `pd.DataFrame(encoded_column)` raises — surfaced as
`unknownEncodingStrategy`. -/
def create_encoded_column (encoding x_column : String) (df : Dataset)
    (target_column y_type : String) :
    Except PyError (List (List Value) × (String ⊕ List String)) :=
  if encoding = "One-Hot" then
    match one_hot_encoding df x_column with
    | none => .error (.keyError x_column)
    | some (mat, names) => .ok (mat.map (fun col => col.map Value.vInt), .inr names)
  else if encoding = "Target" then
    match tartet_encoding df x_column target_column y_type with
    | none => .error (.keyError x_column)
    | some r => .ok r
  else if encoding = "Ordinal" then
    match ordinal_encoding df x_column with
    | none => .error (.keyError x_column)
    | some (col, name) => .ok (col, .inl name)
  else .error .unknownEncodingStrategy

/-- C4: a strategy name outside {One-Hot, Ordinal, Target} makes
`create_encoded_column` surface the unknown-strategy error immediately: no
encoder branch runs, so there is no retry and no partial result. -/
theorem create_encoded_column_unknown_strategy (encoding x_column : String)
    (df : Dataset) (target_column y_type : String)
    (h1 : encoding ≠ "One-Hot") (h2 : encoding ≠ "Ordinal")
    (h3 : encoding ≠ "Target") :
    create_encoded_column encoding x_column df target_column y_type =
      .error .unknownEncodingStrategy := by
  unfold create_encoded_column
  rw [if_neg h1, if_neg h3, if_neg h2]

/-- Witness for C4 with the unrecognized strategy name "Label". -/
theorem create_encoded_column_unknown_strategy_witness :
    ("Label" ≠ "One-Hot" ∧ "Label" ≠ "Ordinal" ∧ "Label" ≠ "Target") ∧
      create_encoded_column "Label" "city" [⟨"city", "object", [Value.vStr "A"]⟩]
          "y" "Numeric" = .error .unknownEncodingStrategy :=
  ⟨by decide,
    create_encoded_column_unknown_strategy _ _ _ _ _
      (by decide) (by decide) (by decide)⟩

/-- C2: with a Categorical target, exactly two distinct classes give one
output column named `<col>_target`; more than two give one column per
class, named `<col>_target_<class>` in sorted class order, with the
column count equal to the class count. -/
theorem tartet_encoding_class_columns (df : Dataset)
    (x_column target_column : String) (cx cy : Column)
    (hx : getCol df x_column = some cx) (hy : getCol df target_column = some cy) :
    ((sortedUnique cy.values).length = 2 →
      ∃ cols, tartet_encoding df x_column target_column "Categorical" =
          some (cols, Sum.inl (x_column ++ "_target")) ∧ cols.length = 1) ∧
      (2 < (sortedUnique cy.values).length →
        ∃ cols, tartet_encoding df x_column target_column "Categorical" =
            some (cols, Sum.inr ((sortedUnique cy.values).map
              (fun cls => x_column ++ "_target_" ++ valueToStr cls))) ∧
          cols.length = (sortedUnique cy.values).length) := by
  constructor
  · intro h2
    have hrun : tartet_encoding df x_column target_column "Categorical" =
        some ([cx.values.map (fun x0 => Value.vRat (catMean cx.values
            (cy.values.map (indicator
              ((sortedUnique cy.values).getLastD (Value.vInt 0)))) x0))],
          Sum.inl (x_column ++ "_target")) := by
      simp only [tartet_encoding, hx, hy]
      rw [if_neg (by decide : ¬ ("Categorical" : String) = "Numeric"),
        if_pos (le_of_eq h2)]
    exact ⟨_, hrun, rfl⟩
  · intro hgt
    have hrun : tartet_encoding df x_column target_column "Categorical" =
        some ((sortedUnique cy.values).map (fun cls =>
            cx.values.map (fun x0 => Value.vRat (catMean cx.values
              (cy.values.map (indicator cls)) x0))),
          Sum.inr ((sortedUnique cy.values).map
            (fun cls => x_column ++ "_target_" ++ valueToStr cls))) := by
      simp only [tartet_encoding, hx, hy]
      rw [if_neg (by decide : ¬ ("Categorical" : String) = "Numeric"),
        if_neg (not_le.mpr hgt)]
    exact ⟨_, hrun, by simp⟩

/-- Witness for C2: a two-class target gives the single column
`city_target`; a three-class target gives three columns named after the
classes in sorted order. -/
theorem tartet_encoding_class_columns_witness :
    (∃ cols, tartet_encoding
          [⟨"city", "object", [Value.vStr "A", Value.vStr "B", Value.vStr "A"]⟩,
            ⟨"lbl", "object", [Value.vStr "u", Value.vStr "v", Value.vStr "u"]⟩]
          "city" "lbl" "Categorical" =
        some (cols, Sum.inl "city_target") ∧ cols.length = 1) ∧
      ∃ cols, tartet_encoding
          [⟨"city", "object", [Value.vStr "A", Value.vStr "B", Value.vStr "A"]⟩,
            ⟨"lbl", "object", [Value.vStr "u", Value.vStr "v", Value.vStr "w"]⟩]
          "city" "lbl" "Categorical" =
        some (cols, Sum.inr ["city_target_u", "city_target_v", "city_target_w"]) ∧
        cols.length = 3 :=
  ⟨(tartet_encoding_class_columns _ "city" "lbl"
      ⟨"city", "object", [Value.vStr "A", Value.vStr "B", Value.vStr "A"]⟩
      ⟨"lbl", "object", [Value.vStr "u", Value.vStr "v", Value.vStr "u"]⟩
      (by decide) (by decide)).1 (by decide),
    (tartet_encoding_class_columns _ "city" "lbl"
      ⟨"city", "object", [Value.vStr "A", Value.vStr "B", Value.vStr "A"]⟩
      ⟨"lbl", "object", [Value.vStr "u", Value.vStr "v", Value.vStr "w"]⟩
      (by decide) (by decide)).2 (by decide)⟩

theorem sum_indicator_zero (v : Value) :
    ∀ cs : List Value, v ∉ cs →
      (cs.map (fun cat => if v = cat then (1 : Int) else 0)).sum = 0 := by
  intro cs
  induction cs with
  | nil => intro _; rfl
  | cons c cs ih =>
    intro h
    have hvc : ¬ v = c := fun he => h (he ▸ List.mem_cons_self c cs)
    simp only [List.map_cons, List.sum_cons, if_neg hvc, zero_add]
    exact ih (fun hm => h (List.mem_cons_of_mem _ hm))

theorem sum_indicator_le_one (v : Value) :
    ∀ cs : List Value, cs.Nodup →
      (cs.map (fun cat => if v = cat then (1 : Int) else 0)).sum ≤ 1 := by
  intro cs
  induction cs with
  | nil => intro _; simp
  | cons c cs ih =>
    intro h
    rcases List.nodup_cons.mp h with ⟨hcm, hnd⟩
    by_cases hvc : v = c
    · subst hvc
      simp only [List.map_cons, List.sum_cons, if_pos rfl]
      rw [sum_indicator_zero v cs hcm]
      simp
    · simp only [List.map_cons, List.sum_cons, if_neg hvc, zero_add]
      exact ih hnd

theorem sum_map_zero_int (l : List Value) : (l.map (fun _ => (0 : Int))).sum = 0 := by
  induction l with
  | nil => rfl
  | cons a l ih => simp [ih]

theorem getD_map_indicator (vs : List Value) (cat : Value) (i : Nat)
    (hi : i < vs.length) :
    (vs.map (fun v => if v = cat then (1 : Int) else 0)).getD i 0 =
      if vs.get ⟨i, hi⟩ = cat then (1 : Int) else 0 := by
  rw [List.getD_eq_getElem?_getD, List.getElem?_map, List.getElem?_eq_getElem hi]
  rfl

theorem getD_map_indicator_ge (vs : List Value) (cat : Value) (i : Nat)
    (hi : ¬ i < vs.length) :
    (vs.map (fun v => if v = cat then (1 : Int) else 0)).getD i 0 = 0 := by
  rw [List.getD_eq_getElem?_getD, List.getElem?_map,
    List.getElem?_eq_none (le_of_not_lt hi)]
  rfl

/-- C3 (amended): one-hot encoding of a column with k distinct observed
values yields exactly k-1 indicator columns — one for each category other
than the least in the encoder's sorted category order (scikit-learn sorts
the observed categories and drops the first of that sorted order, not the
first observed) — named `<col>_one_hot_<category>` for observed
categories `<category>`; every entry is 0 or 1, and each row's entries
sum to at most 1. -/
theorem one_hot_encoding_shape (df : Dataset) (x_column : String) (c : Column)
    (hx : getCol df x_column = some c) :
    ∃ mat names, one_hot_encoding df x_column = some (mat, names) ∧
      mat.length = c.values.dedup.length - 1 ∧
      names.length = c.values.dedup.length - 1 ∧
      names = ((sortedUnique c.values).drop 1).map
        (fun cat => x_column ++ "_one_hot_" ++ valueToStr cat) ∧
      (∀ nm ∈ names, ∃ cat ∈ c.values, nm = x_column ++ "_one_hot_" ++ valueToStr cat) ∧
      (∀ col ∈ mat, ∀ v ∈ col, v = 0 ∨ v = 1) ∧
      ∀ i : Nat, (mat.map (fun col => col.getD i 0)).sum ≤ 1 := by
  have hrun : one_hot_encoding df x_column =
      some (((sortedUnique c.values).drop 1).map
          (fun cat => c.values.map (fun v => if v = cat then 1 else 0)),
        ((sortedUnique c.values).drop 1).map
          (fun cat => x_column ++ "_one_hot_" ++ valueToStr cat)) := by
    rw [one_hot_encoding, hx]
    rfl
  refine ⟨_, _, hrun, ?_, ?_, rfl, ?_, ?_, ?_⟩
  · simp [sortedUnique_length]
  · simp [sortedUnique_length]
  · intro nm hnm
    rw [List.mem_map] at hnm
    obtain ⟨cat, hcat, hnm⟩ := hnm
    exact ⟨cat, mem_of_mem_sortedUnique (List.mem_of_mem_drop hcat), hnm.symm⟩
  · intro col hcol v hv
    rw [List.mem_map] at hcol
    obtain ⟨cat, _, hcol⟩ := hcol
    rw [← hcol] at hv
    rw [List.mem_map] at hv
    obtain ⟨w, _, hv⟩ := hv
    by_cases hw : w = cat
    · right; rw [← hv, if_pos hw]
    · left; rw [← hv, if_neg hw]
  · intro i
    rw [List.map_map]
    by_cases hi : i < c.values.length
    · have hrw : ((sortedUnique c.values).drop 1).map
          ((fun col => List.getD col i 0) ∘
            (fun cat => c.values.map (fun v => if v = cat then (1 : Int) else 0))) =
          ((sortedUnique c.values).drop 1).map
            (fun cat => if c.values.get ⟨i, hi⟩ = cat then (1 : Int) else 0) := by
        apply List.map_congr_left
        intro cat _
        exact getD_map_indicator c.values cat i hi
      rw [hrw]
      exact sum_indicator_le_one _ _
        ((List.drop_sublist 1 _).nodup (sortedUnique_nodup c.values))
    · have hrw : ((sortedUnique c.values).drop 1).map
          ((fun col => List.getD col i 0) ∘
            (fun cat => c.values.map (fun v => if v = cat then (1 : Int) else 0))) =
          ((sortedUnique c.values).drop 1).map (fun _ => (0 : Int)) := by
        apply List.map_congr_left
        intro cat _
        exact getD_map_indicator_ge c.values cat i hi
      rw [hrw, sum_map_zero_int]
      decide

/-- Witness for C3 (amended) on the values ["B", "A", "B"]: two distinct
categories, one indicator column, named for "B". -/
theorem one_hot_encoding_shape_witness :
    ∃ mat names,
      one_hot_encoding [⟨"city", "object",
          [Value.vStr "B", Value.vStr "A", Value.vStr "B"]⟩] "city" =
        some (mat, names) ∧
      mat.length = [Value.vStr "B", Value.vStr "A", Value.vStr "B"].dedup.length - 1 ∧
      names.length = [Value.vStr "B", Value.vStr "A", Value.vStr "B"].dedup.length - 1 ∧
      names = ((sortedUnique [Value.vStr "B", Value.vStr "A", Value.vStr "B"]).drop 1).map
        (fun cat => "city" ++ "_one_hot_" ++ valueToStr cat) ∧
      (∀ nm ∈ names, ∃ cat ∈ [Value.vStr "B", Value.vStr "A", Value.vStr "B"],
        nm = "city" ++ "_one_hot_" ++ valueToStr cat) ∧
      (∀ col ∈ mat, ∀ v ∈ col, v = 0 ∨ v = 1) ∧
      ∀ i : Nat, (mat.map (fun col => col.getD i 0)).sum ≤ 1 :=
  one_hot_encoding_shape _ "city"
    ⟨"city", "object", [Value.vStr "B", Value.vStr "A", Value.vStr "B"]⟩ (by decide)

/-- C3 counterexample: on the observed values ["B", "A"] the first
observed category is "B", so the claimed naming (first observed category
dropped) would produce the single column name `c_one_hot_A`; the code
sorts the categories, drops "A", and names the column `c_one_hot_B`. -/
theorem one_hot_encoding_first_observed_counterexample :
    Option.map Prod.snd (one_hot_encoding
        [⟨"c", "object", [Value.vStr "B", Value.vStr "A"]⟩] "c") =
      some ["c_one_hot_B"] ∧
      Option.map Prod.snd (one_hot_encoding
          [⟨"c", "object", [Value.vStr "B", Value.vStr "A"]⟩] "c") ≠
        some ["c_one_hot_A"] := by
  decide

/-! ## Encodable-column selection (`find_valid_cols`) -/

/-- Python's `in` operator on strings: contiguous-substring containment. -/
def pySubstr (sub s : String) : Bool :=
  decide (sub.data <:+: s.data)

/-- The list comprehension of `find_valid_cols` (lines 88-94): the dtype
lookup runs for every column (a missing dtype is a `KeyError`), and a
column is kept when its category is Categorical and its name is not a
substring of the target name — the code's `col not in target_var` is
Python's substring containment on strings, not an equality test. -/
def validColsGo (target_var : String) (dtype_map : List (String × String)) :
    List Column → Option (List String)
  | [] => some []
  | c :: rest =>
    match dtype_map.lookup c.dtype, validColsGo target_var dtype_map rest with
    | some cat, some r =>
      some (if cat = "Categorical" ∧ pySubstr c.name target_var = false
        then c.name :: r else r)
    | _, _ => none

/-- `find_valid_cols` (lines 77-95): the categorical columns available for
encoding, excluding those whose name is contained in the target name. -/
def find_valid_cols (df : Dataset) (target_var : String)
    (dtype_map : List (String × String)) : Option (List String) :=
  validColsGo target_var dtype_map df

theorem validColsGo_mem (t : String) (m : List (String × String)) :
    ∀ (df : List Column) (valid : List String),
      validColsGo t m df = some valid →
      ∀ s, s ∈ valid ↔ ∃ c ∈ df, c.name = s ∧
        m.lookup c.dtype = some "Categorical" ∧ pySubstr s t = false := by
  intro df
  induction df with
  | nil =>
    intro valid h s
    have hv : valid = [] := by simpa [validColsGo] using h.symm
    subst hv
    constructor
    · intro hs; cases hs
    · rintro ⟨c, hc, _⟩; cases hc
  | cons c rest ih =>
    intro valid h s
    rw [validColsGo] at h
    cases h1 : m.lookup c.dtype with
    | none => rw [h1] at h; cases h
    | some cat =>
      rw [h1] at h
      cases h2 : validColsGo t m rest with
      | none => rw [h2] at h; cases h
      | some r =>
        rw [h2] at h
        have hv : valid = if cat = "Categorical" ∧ pySubstr c.name t = false
            then c.name :: r else r := by simpa using h.symm
        subst hv
        constructor
        · intro hs
          by_cases hcond : cat = "Categorical" ∧ pySubstr c.name t = false
          · rw [if_pos hcond] at hs
            rcases List.mem_cons.mp hs with hs | hs
            · exact ⟨c, List.mem_cons_self _ _,
                hs.symm, by rw [h1, hcond.1], by rw [hs]; exact hcond.2⟩
            · obtain ⟨d, hd, hds, hdc, hdp⟩ := ((ih r h2) s).mp hs
              exact ⟨d, List.mem_cons_of_mem _ hd, hds, hdc, hdp⟩
          · rw [if_neg hcond] at hs
            obtain ⟨d, hd, hds, hdc, hdp⟩ := ((ih r h2) s).mp hs
            exact ⟨d, List.mem_cons_of_mem _ hd, hds, hdc, hdp⟩
        · rintro ⟨d, hd, hds, hdc, hdp⟩
          rcases List.mem_cons.mp hd with hd | hd
          · subst hd
            have hcat : cat = "Categorical" := by
              rw [h1] at hdc
              simpa using hdc
            subst hds
            rw [if_pos ⟨hcat, hdp⟩]
            exact List.mem_cons_self _ _
          · have hmem : s ∈ r := ((ih r h2) s).mpr ⟨d, hd, hds, hdc, hdp⟩
            by_cases hcond : cat = "Categorical" ∧ pySubstr c.name t = false
            · rw [if_pos hcond]; exact List.mem_cons_of_mem _ hmem
            · rw [if_neg hcond]; exact hmem

/-- C10: among the columns the dtype map classifies as Categorical,
`find_valid_cols` excludes a column from the encodable list exactly when
the column's name occurs as a contiguous substring of the target variable
name — not only when it equals the target. -/
theorem find_valid_cols_substring_exclusion (df : Dataset) (target_var : String)
    (m : List (String × String)) (valid : List String) (c : Column)
    (hv : find_valid_cols df target_var m = some valid)
    (hc : c ∈ df) (hcat : m.lookup c.dtype = some "Categorical") :
    c.name ∉ valid ↔ pySubstr c.name target_var = true := by
  constructor
  · intro hnot
    by_contra hsub
    have hfalse : pySubstr c.name target_var = false :=
      Bool.eq_false_iff.mpr hsub
    exact hnot (((validColsGo_mem target_var m df valid hv) c.name).mpr
      ⟨c, hc, rfl, hcat, hfalse⟩)
  · intro htrue hmem
    obtain ⟨d, _, _, _, hdp⟩ :=
      ((validColsGo_mem target_var m df valid hv) c.name).mp hmem
    rw [htrue] at hdp
    cases hdp

/-- Witness for C10, the spec's own example: with target "weight", the
categorical column named "eight" is excluded (its name is a substring of
"weight"), while "city" is kept. -/
theorem find_valid_cols_substring_exclusion_witness :
    find_valid_cols
        [⟨"eight", "object", [Value.vStr "x"]⟩, ⟨"city", "object", [Value.vStr "y"]⟩]
        "weight" [("object", "Categorical")] = some ["city"] ∧
      Column.mk "eight" "object" [Value.vStr "x"] ∈
        [Column.mk "eight" "object" [Value.vStr "x"],
          Column.mk "city" "object" [Value.vStr "y"]] ∧
      [("object", "Categorical")].lookup "object" = some "Categorical" ∧
      ("eight" ∉ (["city"] : List String) ↔ pySubstr "eight" "weight" = true) :=
  ⟨by decide, by decide, by decide,
    find_valid_cols_substring_exclusion
      [⟨"eight", "object", [Value.vStr "x"]⟩, ⟨"city", "object", [Value.vStr "y"]⟩]
      "weight" [("object", "Categorical")] ["city"]
      ⟨"eight", "object", [Value.vStr "x"]⟩
      (by decide) (by decide) (by decide)⟩

/-! ## Feature assembly (`create_model_df`) -/

/-- pandas dtype inference for a freshly built frame of encoded values;
the one-hot `int8` width is abstracted to `"int64"`. -/
def inferDtype (vs : List Value) : String :=
  if vs.all (fun v => match v with | .vInt _ => true | _ => false) then "int64"
  else if vs.all (fun v => match v with | .vRat _ => true | _ => false) then "float64"
  else "object"

/-- The renaming step of `create_model_df` (lines 245-248): a single
string name requires the encoded frame to have exactly one column, a name
list must match the column count; otherwise pandas raises a
length-mismatch `ValueError`. -/
def renameCols (mat : List (List Value)) :
    String ⊕ List String → Except PyError (List Column)
  | .inl n =>
    match mat with
    | [col] => .ok [⟨n, inferDtype col, col⟩]
    | _ => .error .lengthMismatch
  | .inr ns =>
    if ns.length = mat.length then
      .ok ((ns.zip mat).map (fun p => ⟨p.1, inferDtype p.2, p.2⟩))
    else .error .lengthMismatch

/-- The numeric-column comprehension of `create_model_df` (lines 226-236):
every column's dtype is looked up (a missing dtype is a `KeyError`), and
the columns whose category is Numeric are kept in order. -/
def numericCols (dtype_map : List (String × String)) :
    List Column → Option (List Column)
  | [] => some []
  | c :: rest =>
    match dtype_map.lookup c.dtype, numericCols dtype_map rest with
    | some cat, some r => some (if cat = "Numeric" then c :: r else r)
    | _, _ => none

/-- The encoding loop of `create_model_df` (lines 237-250): for each
`(Variable, Encoding)` row of the request, encode the column, name the
result, and append its columns to the accumulating frame. -/
def appendEncoded (df : Dataset) (target_var y_type : String) :
    List Column → List (String × String) → Except PyError (List Column)
  | acc, [] => .ok acc
  | acc, (xvar, encoding) :: rest =>
    match create_encoded_column encoding xvar df target_var y_type with
    | .error e => .error e
    | .ok (mat, names) =>
      match renameCols mat names with
      | .error e => .error e
      | .ok cols => appendEncoded df target_var y_type (acc ++ cols) rest

/-- Lines 251-252: `if target_var in model_df.columns:` then
`model_df.drop(target_var, axis=1)` — dropping a label removes every
column carrying it. -/
def dropTarget (target_var : String) (l : List Column) : List Column :=
  if l.any (fun c => c.name == target_var) then
    l.filter (fun c => decide (c.name ≠ target_var))
  else l

/-- `create_model_df` (lines 207-253): concatenates the Numeric columns
(pandas `concat` raises on an empty column list), appends the encoded
columns for each requested encoding in request order, then drops the
target label if present. -/
def create_model_df (res_df : List (String × String)) (df : Dataset)
    (target_var y_type : String) (dtype_map : List (String × String)) :
    Except PyError (List Column) :=
  match numericCols dtype_map df with
  | none => .error (.keyError "dtype")
  | some nums =>
    if nums.isEmpty then .error .noObjectsToConcatenate
    else
      match appendEncoded df target_var y_type nums res_df with
      | .error e => .error e
      | .ok base => .ok (dropTarget target_var base)

theorem dropTarget_no_target (t : String) (l : List Column) :
    ∀ c ∈ dropTarget t l, c.name ≠ t := by
  intro c hc
  unfold dropTarget at hc
  by_cases h : l.any (fun c => c.name == t)
  · rw [if_pos h] at hc
    have := List.of_mem_filter hc
    simpa using this
  · rw [if_neg h] at hc
    intro he
    apply h
    rw [List.any_eq_true]
    exact ⟨c, hc, by simp [he]⟩

/-- C1: whenever `create_model_df` returns a feature matrix, none of its
columns carries the target variable's name: the final drop removes every
column labelled with it, and when the guard finds no such label none
exists to begin with. -/
theorem create_model_df_no_target (res_df : List (String × String))
    (df : Dataset) (target_var y_type : String)
    (dtype_map : List (String × String)) (out : List Column)
    (h : create_model_df res_df df target_var y_type dtype_map = .ok out) :
    ∀ c ∈ out, c.name ≠ target_var := by
  unfold create_model_df at h
  split at h
  · cases h
  · split at h
    · cases h
    · split at h
      · cases h
      · injection h with hh
        rw [← hh]
        exact dropTarget_no_target target_var _

/-- Witness for C1, the spec's §8 example: columns age:int, city:string,
weight:float, target weight, encoding {city: One-Hot}: the feature matrix
is [age, city_one_hot_B] and weight is excluded. -/
theorem create_model_df_no_target_witness :
    create_model_df [("city", "One-Hot")]
        [⟨"age", "int64", [Value.vInt 30, Value.vInt 40]⟩,
          ⟨"city", "object", [Value.vStr "A", Value.vStr "B"]⟩,
          ⟨"weight", "float64", [Value.vRat 70, Value.vRat 80]⟩]
        "weight" "Numeric"
        [("int64", "Numeric"), ("object", "Categorical"), ("float64", "Numeric")] =
      .ok [⟨"age", "int64", [Value.vInt 30, Value.vInt 40]⟩,
        ⟨"city_one_hot_B", "int64", [Value.vInt 0, Value.vInt 1]⟩] ∧
      ∀ c ∈ [Column.mk "age" "int64" [Value.vInt 30, Value.vInt 40],
        Column.mk "city_one_hot_B" "int64" [Value.vInt 0, Value.vInt 1]],
        c.name ≠ "weight" :=
  ⟨by decide,
    create_model_df_no_target [("city", "One-Hot")]
      [⟨"age", "int64", [Value.vInt 30, Value.vInt 40]⟩,
        ⟨"city", "object", [Value.vStr "A", Value.vStr "B"]⟩,
        ⟨"weight", "float64", [Value.vRat 70, Value.vRat 80]⟩]
      "weight" "Numeric"
      [("int64", "Numeric"), ("object", "Categorical"), ("float64", "Numeric")]
      [⟨"age", "int64", [Value.vInt 30, Value.vInt 40]⟩,
        ⟨"city_one_hot_B", "int64", [Value.vInt 0, Value.vInt 1]⟩]
      (by decide)⟩

/-! ## Dimensionality reduction (`create_pca_before`, `create_pca_after`) -/

/-- Number of rows of a frame (pandas: all columns share one length). -/
def nRows : Dataset → Nat
  | [] => 0
  | c :: _ => c.values.length

/-- `create_pca_after` (lines 314-319): the scaler+PCA pipeline is the
provided library primitive (the spec's scope section places the
decomposition itself outside the core); it is modelled by its interface:
scikit-learn raises a `ValueError` — `componentCountExceeded` — whenever
the requested component count exceeds `min(n_samples, n_features)`, and
otherwise the projection is a frame of `n_comp` float columns named
`PC1..PCk` with one entry per input row (the projected numeric entries
are the primitive's output, abstracted to 0 here; no claim refers to
them). -/
def create_pca_after (df : Dataset) (n_comp : Nat) : Except PyError Dataset :=
  if min (nRows df) df.length < n_comp then .error .componentCountExceeded
  else .ok ((List.range n_comp).map (fun i =>
    ⟨"PC" ++ toString (i + 1), "float64",
      List.replicate (nRows df) (Value.vRat 0)⟩))

/-- C7: requesting more principal components than there are feature
columns always fails with the component-count error, whatever the row
count. -/
theorem create_pca_after_too_many (df : Dataset) (n_comp : Nat)
    (h : df.length < n_comp) :
    create_pca_after df n_comp = .error .componentCountExceeded := by
  unfold create_pca_after
  rw [if_pos (lt_of_le_of_lt (min_le_right _ _) h)]

/-- Witness for C7, the spec's example: 5 components requested on a frame
with 3 feature columns. -/
theorem create_pca_after_too_many_witness :
    ([⟨"a", "float64", [Value.vRat 1, Value.vRat 2, Value.vRat 3, Value.vRat 4]⟩,
        ⟨"b", "float64", [Value.vRat 0, Value.vRat 1, Value.vRat 0, Value.vRat 1]⟩,
        ⟨"c", "float64", [Value.vRat 2, Value.vRat 2, Value.vRat 3, Value.vRat 3]⟩] :
      Dataset).length < 5 ∧
      create_pca_after
          [⟨"a", "float64", [Value.vRat 1, Value.vRat 2, Value.vRat 3, Value.vRat 4]⟩,
            ⟨"b", "float64", [Value.vRat 0, Value.vRat 1, Value.vRat 0, Value.vRat 1]⟩,
            ⟨"c", "float64", [Value.vRat 2, Value.vRat 2, Value.vRat 3, Value.vRat 3]⟩]
          5 = .error .componentCountExceeded :=
  ⟨by decide,
    create_pca_after_too_many
      [⟨"a", "float64", [Value.vRat 1, Value.vRat 2, Value.vRat 3, Value.vRat 4]⟩,
        ⟨"b", "float64", [Value.vRat 0, Value.vRat 1, Value.vRat 0, Value.vRat 1]⟩,
        ⟨"c", "float64", [Value.vRat 2, Value.vRat 2, Value.vRat 3, Value.vRat 3]⟩]
      5 (by decide)⟩

/-- Running partial sums of `l` starting from `acc`. -/
def cumsumGo (acc : Rat) : List Rat → List Rat
  | [] => []
  | x :: xs => (acc + x) :: cumsumGo (acc + x) xs

/-- numpy's `cumsum`. -/
def cumsum (l : List Rat) : List Rat := cumsumGo 0 l

/-- The variance report of `create_pca_before`: a frame of three parallel
columns. -/
structure VarianceReport where
  components : List Nat
  explainedVariance : List Rat
  cumulativeVariance : List Rat
deriving DecidableEq

/-- `create_pca_before` (lines 295-312): the scaler+PCA fit is the
provided library primitive; its per-component explained-variance output
(`explained_variance_ratio_`) is the input `evr` here, machine floats
abstracted to rationals. The function itself builds the report frame:
component indices counted from 1, the per-component column, and its
running cumulative sum (`cumsum`). -/
def create_pca_before (evr : List Rat) : VarianceReport :=
  ⟨(List.range evr.length).map (fun i => i + 1), evr, cumsum evr⟩

theorem cumsumGo_chain (l : List Rat) :
    ∀ acc : Rat, (∀ x ∈ l, 0 ≤ x) →
      List.Chain (· ≤ ·) acc (cumsumGo acc l) := by
  induction l with
  | nil => intro acc _; exact List.Chain.nil
  | cons x xs ih =>
    intro acc h
    refine List.Chain.cons ?_
      (ih (acc + x) (fun y hy => h y (List.mem_cons_of_mem _ hy)))
    exact le_add_of_nonneg_right (h x (List.mem_cons_self _ _))

theorem cumsumGo_chain' (l : List Rat) (acc : Rat) (h : ∀ x ∈ l, 0 ≤ x) :
    List.Chain' (· ≤ ·) (cumsumGo acc l) := by
  cases l with
  | nil => simp [cumsumGo]
  | cons x xs =>
    rw [cumsumGo]
    show List.Chain (· ≤ ·) (acc + x) (cumsumGo (acc + x) xs)
    exact cumsumGo_chain xs (acc + x) (fun y hy => h y (List.mem_cons_of_mem _ hy))

theorem cumsumGo_le_sum (l : List Rat) :
    ∀ acc : Rat, (∀ x ∈ l, 0 ≤ x) → ∀ y ∈ cumsumGo acc l, y ≤ acc + l.sum := by
  induction l with
  | nil => intro acc _ y hy; cases hy
  | cons x xs ih =>
    intro acc h y hy
    rcases List.mem_cons.mp hy with hy | hy
    · subst hy
      have hsum : 0 ≤ xs.sum :=
        List.sum_nonneg (fun z hz => h z (List.mem_cons_of_mem _ hz))
      calc acc + x ≤ acc + x + xs.sum := le_add_of_nonneg_right hsum
        _ = acc + (x :: xs).sum := by rw [List.sum_cons]; ring
    · have hy2 := ih (acc + x) (fun z hz => h z (List.mem_cons_of_mem _ hz)) y hy
      calc y ≤ acc + x + xs.sum := hy2
        _ = acc + (x :: xs).sum := by rw [List.sum_cons]; ring

theorem mem_of_getLast?_eq {l : List Rat} {y : Rat} :
    l.getLast? = some y → y ∈ l := by
  induction l with
  | nil => intro h; cases h
  | cons a l ih =>
    intro h
    cases l with
    | nil =>
      have ha : a = y := by simpa using h
      rw [ha]; exact List.mem_cons_self _ _
    | cons b l2 =>
      rw [List.getLast?_cons_cons] at h
      exact List.mem_cons_of_mem _ (ih h)

/-- C9: when the library's explained-variance output is a list of
nonnegative fractions totalling at most 1 — the documented contract of a
variance decomposition's `explained_variance_ratio_` — the report's
cumulative column is non-decreasing from component 1 to the last, and its
final value is at most 1. -/
theorem create_pca_before_cumulative (evr : List Rat)
    (hpos : ∀ x ∈ evr, 0 ≤ x) (hsum : evr.sum ≤ 1) :
    List.Chain' (· ≤ ·) (create_pca_before evr).cumulativeVariance ∧
      ∀ y, (create_pca_before evr).cumulativeVariance.getLast? = some y →
        y ≤ 1 := by
  constructor
  · exact cumsumGo_chain' evr 0 hpos
  · intro y hy
    have hmem : y ∈ cumsumGo 0 evr := mem_of_getLast?_eq hy
    have := cumsumGo_le_sum evr 0 hpos y hmem
    calc y ≤ 0 + evr.sum := this
      _ = evr.sum := by ring
      _ ≤ 1 := hsum

/-- Witness for C9 at the ratio list [1, 0, 0]. -/
theorem create_pca_before_cumulative_witness :
    (∀ x ∈ ([1, 0, 0] : List Rat), 0 ≤ x) ∧
      ([1, 0, 0] : List Rat).sum ≤ 1 ∧
      List.Chain' (· ≤ ·) (create_pca_before [1, 0, 0]).cumulativeVariance ∧
      ∀ y, (create_pca_before [1, 0, 0]).cumulativeVariance.getLast? = some y →
        y ≤ 1 :=
  ⟨by decide, by simp,
    (create_pca_before_cumulative [1, 0, 0] (by decide) (by simp)).1,
    (create_pca_before_cumulative [1, 0, 0] (by decide) (by simp)).2⟩

end DataWrangling
